import Mathlib

/-!
Shallow embedding of the AzureAI-Proxy-Function conversation-orchestration core
(src/data/chunk_data.py, src/data/chat_context.py, src/proxy/abstract_proxy.py,
src/proxy/completions_proxy.py, src/proxy/assistant_proxy.py,
src/proxy/assistant_processor.py), together with theorems settling the
behavioural claims about it.

Conventions of the embedding:
  - Python None-able values are `Option`s.
  - A Python exception is an `Except.error` carrying a `PyError`; since every
    exception in the modelled fragments aborts the whole operation, the state
    mutated before a raise is discarded with the error.
  - Wall-clock instants are rationals (the code only subtracts and compares
    them; no float rounding is involved in any claim).
  - External collaborators (the json library, the remote model, the remote
    agent service) enter as explicit oracle parameters, never as stubs of
    repository code.
-/

/-- The Python exception kinds raised by the modelled code paths. -/
inductive PyError where
  | typeError
  | attributeError
  | keyError
  | indexError
  | jsonDecodeError
  | timeoutError
  | valueError (msg : String)
deriving DecidableEq, Repr

/-- A history message as stored in the completions-proxy thread history
(`self.history["messages"]` entries).  The bookkeeping timestamp field `ts`
is stripped before every model call and is referenced by no claim, so it is
not modelled.  `citations` holds the already-serialised citation payload of
the data-source path. -/
structure Msg where
  role : Option String
  content : Option String
  citations : Option (List String)
deriving DecidableEq, Repr

/-- chunk_data.py `ChunkToolCallFunction`. -/
structure ChunkToolCallFunction where
  name : Option String
  arguments : Option String
deriving DecidableEq, Repr

/-- chunk_data.py `ChunkToolCallData` (the per-index tool-call accumulator).
A fresh instance has `index = 0` and all other fields null. -/
structure ChunkToolCallData where
  index : Nat
  id : Option String
  type : Option String
  function : ChunkToolCallFunction
deriving DecidableEq, Repr

/-- The fresh accumulator produced by `ChunkToolCallData()`. -/
def freshToolCall : ChunkToolCallData :=
  ⟨0, none, none, ⟨none, none⟩⟩

/-- openai `ChoiceDeltaToolCallFunction`: the function part of one streamed
tool-call fragment. -/
structure ChoiceDeltaToolCallFunction where
  name : Option String
  arguments : Option String
deriving DecidableEq, Repr

/-- openai `ChoiceDeltaToolCall`: one streamed tool-call fragment.  The
`function` member is optional in the openai type; accessing a field of a null
`function` raises `AttributeError` in the source. -/
structure ChoiceDeltaToolCall where
  index : Nat
  id : Option String
  type : Option String
  function : Option ChoiceDeltaToolCallFunction
deriving DecidableEq, Repr

/-- openai `ChoiceDelta`: one streamed fragment of a completions response. -/
structure ChoiceDelta where
  role : Option String
  content : Option String
  tool_calls : Option (List ChoiceDeltaToolCall)
deriving DecidableEq, Repr

/-- chunk_data.py `ChunkData`: the streaming-delta accumulator. -/
structure ChunkData where
  content : Option String
  role : Option String
  tool_calls : Option (List ChunkToolCallData)
  accumulated_delta : Option String
  last_stream_publish : ℚ
  tool_content : Option String
deriving DecidableEq, Repr

/-- A freshly constructed `ChunkData()`. -/
def initChunk : ChunkData :=
  ⟨none, none, none, none, 0, none⟩

/-- The body of the per-fragment merge in `ChunkData.add_chunk_delta`
(chunk_data.py lines 107-114): requires the accumulator or the fragment to be
of type "function"; sets the index; a non-null id/type/name in the fragment
overwrites the stored one; a non-null argument piece is appended to the stored
argument text.  A null `function` member raises `AttributeError`; a fragment
that leaves the type test false raises `ValueError`. -/
def merge_tool_call_fragment (tool_call : ChunkToolCallData)
    (delta_tool : ChoiceDeltaToolCall) : Except PyError ChunkToolCallData :=
  if tool_call.type = some "function" ∨ delta_tool.type = some "function" then
    match delta_tool.function with
    | none => .error .attributeError
    | some f =>
      .ok { index := delta_tool.index
            id := match delta_tool.id with
              | some i => some i
              | none => tool_call.id
            type := match delta_tool.type with
              | some t => some t
              | none => tool_call.type
            function :=
              { name := match f.name with
                  | some n => some n
                  | none => tool_call.function.name
                arguments := match f.arguments with
                  | some a => some (tool_call.function.arguments.getD "" ++ a)
                  | none => tool_call.function.arguments } }
  else
    .error (.valueError "Unknown tool call type")

/-- The fragment-routing loop of `add_chunk_delta` (chunk_data.py lines
96-105): find the first accumulator with the fragment's index and merge into
it; if none matches, a fresh accumulator is appended at the end and merged
into. -/
def apply_delta_tool : List ChunkToolCallData → ChoiceDeltaToolCall →
    Except PyError (List ChunkToolCallData)
  | [], d => (merge_tool_call_fragment freshToolCall d).map (fun a => [a])
  | acc :: rest, d =>
    if acc.index = d.index then
      (merge_tool_call_fragment acc d).map (fun a => a :: rest)
    else
      (apply_delta_tool rest d).map (fun l => acc :: l)

/-- chunk_data.py `ChunkData.add_chunk_delta`: a declared role replaces the
stored role, content is appended to both `content` and the pending-publish
buffer `accumulated_delta`, and each tool-call fragment is routed by index. -/
def add_chunk_delta (st : ChunkData) (delta : ChoiceDelta) :
    Except PyError ChunkData :=
  let st1 := match delta.role with
    | some r => { st with role := some r }
    | none => st
  let st2 := match delta.content with
    | none => st1
    | some c =>
      { st1 with content := some (st1.content.getD "" ++ c)
                 accumulated_delta := some (st1.accumulated_delta.getD "" ++ c) }
  match delta.tool_calls with
  | none => .ok st2
  | some dts =>
    (dts.foldlM apply_delta_tool (st2.tool_calls.getD [])).map
      (fun tcs => { st2 with tool_calls := some tcs })

/-- A stream of deltas applied in arrival order through `add_chunk_delta`. -/
def apply_chunk_deltas (st : ChunkData) (ds : List ChoiceDelta) :
    Except PyError ChunkData :=
  ds.foldlM add_chunk_delta st

/-- The content accumulated by a delta sequence: the concatenation of the
non-null content fields in arrival order, still null when no fragment carried
content. -/
def joined_content (init : Option String) (ds : List ChoiceDelta) : Option String :=
  ds.foldl (fun acc d =>
    match d.content with
    | none => acc
    | some c => some (acc.getD "" ++ c)) init


theorem except_map_ok {ε α β : Type} {f : α → β} {e : Except ε α} {b : β}
    (h : e.map f = .ok b) : ∃ a, e = .ok a ∧ b = f a := by
  cases e with
  | error _ => simp [Except.map] at h
  | ok a =>
    refine ⟨a, rfl, ?_⟩
    simp only [Except.map] at h
    exact (Except.ok.inj h).symm

theorem add_chunk_delta_content {st : ChunkData} {d : ChoiceDelta} {st' : ChunkData}
    (h : add_chunk_delta st d = .ok st') :
    st'.content =
      match d.content with
      | none => st.content
      | some c => some (st.content.getD "" ++ c) := by
  obtain ⟨dr, dc, dt⟩ := d
  simp only [add_chunk_delta] at h
  cases dt with
  | none =>
    cases dc <;> cases dr <;> simp_all <;> simp [← h]
  | some dts =>
    obtain ⟨tcs, hfold, hst⟩ := except_map_ok h
    subst hst
    cases dc <;> cases dr <;> simp

theorem apply_chunk_deltas_content :
    ∀ (ds : List ChoiceDelta) (st st' : ChunkData),
      apply_chunk_deltas st ds = .ok st' → st'.content = joined_content st.content ds := by
  intro ds
  induction ds with
  | nil =>
    intro st st' h
    simp only [apply_chunk_deltas, List.foldlM_nil, pure, Except.pure] at h
    simp [joined_content, Except.ok.inj h]
  | cons d rest ih =>
    intro st st' h
    simp only [apply_chunk_deltas, List.foldlM_cons] at h
    cases hstep : add_chunk_delta st d with
    | error e => rw [hstep] at h; simp [bind, Except.bind] at h
    | ok s1 =>
      rw [hstep] at h
      simp only [bind, Except.bind] at h
      have hcont := add_chunk_delta_content hstep
      have htail := ih s1 st' h
      rw [htail]
      simp only [joined_content, List.foldl_cons]
      cases hc : d.content <;> rw [hc] at hcont <;> simp at hcont <;> simp [hcont]

/-- C7 (counterexample): the content fragments "a" and "aa" are distinct, yet
applying them through `add_chunk_delta` in either order accumulates the same
content "aaa"; so reversing two distinct content fragments does not always
change the accumulated content, as the claim asserts. -/
theorem claim_C7_counterexample :
    (⟨none, some "a", none⟩ : ChoiceDelta) ≠ ⟨none, some "aa", none⟩ ∧
    (apply_chunk_deltas initChunk
        [⟨none, some "a", none⟩, ⟨none, some "aa", none⟩]).map ChunkData.content =
      (apply_chunk_deltas initChunk
        [⟨none, some "aa", none⟩, ⟨none, some "a", none⟩]).map ChunkData.content :=
  ⟨by decide, rfl⟩

/-- C7 (amended): for every delta sequence applied in arrival order through
`add_chunk_delta`, the final accumulated content equals the concatenation of
the fragments' content fields in arrival order; and the operation is not
commutative: there exist two distinct content fragments whose application in
reversed order yields a different accumulated content (reversal is only
guaranteed to change the result when the two content strings do not commute
as strings). -/
theorem claim_C7 :
    (∀ (ds : List ChoiceDelta) (st : ChunkData),
        apply_chunk_deltas initChunk ds = .ok st → st.content = joined_content none ds)
    ∧ ∃ (d1 d2 : ChoiceDelta) (st1 st2 : ChunkData), d1 ≠ d2 ∧
        apply_chunk_deltas initChunk [d1, d2] = .ok st1 ∧
        apply_chunk_deltas initChunk [d2, d1] = .ok st2 ∧
        st1.content ≠ st2.content := by
  constructor
  · intro ds st h
    exact apply_chunk_deltas_content ds initChunk st h
  · refine ⟨⟨none, some "x", none⟩, ⟨none, some "y", none⟩,
      ⟨some "xy", none, none, some "xy", 0, none⟩,
      ⟨some "yx", none, none, some "yx", 0, none⟩, ?_, rfl, rfl, ?_⟩ <;> decide

/-- C7 (witness): the general content-concatenation statement applied to the
concrete stream ["a" then "b"], whose accumulated content is "ab". -/
theorem claim_C7_witness :
    (⟨some "ab", none, none, some "ab", 0, none⟩ : ChunkData).content =
      joined_content none [⟨none, some "a", none⟩, ⟨none, some "b", none⟩] :=
  claim_C7.1 [⟨none, some "a", none⟩, ⟨none, some "b", none⟩]
    ⟨some "ab", none, none, some "ab", 0, none⟩ (by rfl)

/-- A raw stream of tool-call fragments routed through the `add_chunk_delta`
fragment loop, starting from an empty accumulator set (the
`if self.tool_calls is None: self.tool_calls = []` initialisation). -/
def apply_tool_fragments (frs : List ChoiceDeltaToolCall) :
    Except PyError (List ChunkToolCallData) :=
  frs.foldlM apply_delta_tool []

/-- The argument text accumulated over a fragment list: concatenation of the
non-null argument pieces in arrival order. -/
def joined_args (init : Option String) (frs : List ChoiceDeltaToolCall) : Option String :=
  frs.foldl (fun acc fr =>
    match fr.function with
    | none => acc
    | some f =>
      match f.arguments with
      | none => acc
      | some a => some (acc.getD "" ++ a)) init

/-- The last non-null id seen over a fragment list. -/
def last_id (init : Option String) (frs : List ChoiceDeltaToolCall) : Option String :=
  frs.foldl (fun acc fr =>
    match fr.id with
    | some i => some i
    | none => acc) init

/-- The last non-null type seen over a fragment list. -/
def last_type (init : Option String) (frs : List ChoiceDeltaToolCall) : Option String :=
  frs.foldl (fun acc fr =>
    match fr.type with
    | some t => some t
    | none => acc) init

/-- The last non-null function name seen over a fragment list. -/
def last_fname (init : Option String) (frs : List ChoiceDeltaToolCall) : Option String :=
  frs.foldl (fun acc fr =>
    match fr.function with
    | none => acc
    | some f =>
      match f.name with
      | some n => some n
      | none => acc) init

theorem merge_tool_call_fragment_ok {a : ChunkToolCallData}
    {d : ChoiceDeltaToolCall} {a' : ChunkToolCallData}
    (h : merge_tool_call_fragment a d = .ok a') :
    ∃ f, d.function = some f ∧
      a' = ⟨d.index,
            (match d.id with | some i => some i | none => a.id),
            (match d.type with | some t => some t | none => a.type),
            ⟨(match f.name with | some n => some n | none => a.function.name),
             (match f.arguments with
              | some x => some (a.function.arguments.getD "" ++ x)
              | none => a.function.arguments)⟩⟩ := by
  unfold merge_tool_call_fragment at h
  split at h
  · cases hf : d.function with
    | none => rw [hf] at h; simp at h
    | some f =>
      rw [hf] at h
      exact ⟨f, rfl, (Except.ok.inj h).symm⟩
  · simp at h

theorem merged_fold_fields :
    ∀ (frs : List ChoiceDeltaToolCall) (a a' : ChunkToolCallData),
      List.foldlM merge_tool_call_fragment a frs = .ok a' →
      a'.function.arguments = joined_args a.function.arguments frs ∧
      a'.id = last_id a.id frs ∧
      a'.type = last_type a.type frs ∧
      a'.function.name = last_fname a.function.name frs := by
  intro frs
  induction frs with
  | nil =>
    intro a a' h
    simp only [List.foldlM_nil, pure, Except.pure] at h
    simp [Except.ok.inj h, joined_args, last_id, last_type, last_fname]
  | cons fr rest ih =>
    intro a a' h
    rw [List.foldlM_cons] at h
    cases hm : merge_tool_call_fragment a fr with
    | error e => rw [hm] at h; simp [bind, Except.bind] at h
    | ok a1 =>
      rw [hm] at h
      simp only [bind, Except.bind] at h
      obtain ⟨f, hf, ha1⟩ := merge_tool_call_fragment_ok hm
      have hrest := ih a1 a' h
      subst ha1
      obtain ⟨fn, fa⟩ := f
      cases fa <;> cases fn <;>
        simp only [joined_args, last_id, last_type, last_fname, List.foldl_cons, hf] at hrest ⊢ <;>
        exact hrest

theorem apply_delta_tool_split :
    ∀ (tcs : List ChunkToolCallData) (d : ChoiceDeltaToolCall)
      (tcs' : List ChunkToolCallData),
      apply_delta_tool tcs d = .ok tcs' →
      (∃ pre acc post acc', tcs = pre ++ acc :: post ∧
          (∀ b ∈ pre, b.index ≠ d.index) ∧ acc.index = d.index ∧
          merge_tool_call_fragment acc d = .ok acc' ∧
          tcs' = pre ++ acc' :: post)
      ∨ ((∀ b ∈ tcs, b.index ≠ d.index) ∧
          ∃ a, merge_tool_call_fragment freshToolCall d = .ok a ∧
          tcs' = tcs ++ [a]) := by
  intro tcs
  induction tcs with
  | nil =>
    intro d tcs' h
    simp only [apply_delta_tool] at h
    obtain ⟨a, ha, hts⟩ := except_map_ok h
    exact Or.inr ⟨by simp, a, ha, by simp [hts]⟩
  | cons acc rest ih =>
    intro d tcs' h
    simp only [apply_delta_tool] at h
    by_cases hidx : acc.index = d.index
    · rw [if_pos hidx] at h
      obtain ⟨a, ha, hts⟩ := except_map_ok h
      exact Or.inl ⟨[], acc, rest, a, by simp, by simp, hidx, ha, by simp [hts]⟩
    · rw [if_neg hidx] at h
      obtain ⟨l, hl, hts⟩ := except_map_ok h
      subst hts
      rcases ih d l hl with ⟨pre, b, post, b', hsplit, hpre, hb, hm, hres⟩ | ⟨hall, a, hm, hres⟩
      · exact Or.inl ⟨acc :: pre, b, post, b', by simp [hsplit],
          by simpa [hidx] using hpre, hb, hm, by simp [hres]⟩
      · refine Or.inr ⟨?_, a, hm, by simp [hres]⟩
        intro x hx
        rcases List.mem_cons.mp hx with hx | hx
        · simpa [hx] using hidx
        · exact hall x hx

theorem merge_tool_call_fragment_index {a : ChunkToolCallData}
    {d : ChoiceDeltaToolCall} {a' : ChunkToolCallData}
    (h : merge_tool_call_fragment a d = .ok a') : a'.index = d.index := by
  obtain ⟨f, _, ha⟩ := merge_tool_call_fragment_ok h
  rw [ha]

/-- Invariant of the fragment-routing loop: after successfully processing the
fragment list `done`, the accumulator set `tcs` has pairwise distinct indexes,
every accumulator is the successful merge of exactly the already-seen
fragments carrying its index (in arrival order, starting from a fresh
accumulator), and every seen fragment index owns an accumulator. -/
def ToolInv (done : List ChoiceDeltaToolCall) (tcs : List ChunkToolCallData) : Prop :=
  (tcs.map ChunkToolCallData.index).Nodup ∧
  (∀ acc ∈ tcs,
      done.filter (fun fr => decide (fr.index = acc.index)) ≠ [] ∧
      List.foldlM merge_tool_call_fragment freshToolCall
        (done.filter (fun fr => decide (fr.index = acc.index))) = .ok acc) ∧
  (∀ fr ∈ done, ∃ acc ∈ tcs, acc.index = fr.index)

theorem toolInv_step {done : List ChoiceDeltaToolCall} {tcs : List ChunkToolCallData}
    {d : ChoiceDeltaToolCall} {tcs' : List ChunkToolCallData}
    (hI : ToolInv done tcs) (h : apply_delta_tool tcs d = .ok tcs') :
    ToolInv (done ++ [d]) tcs' := by
  obtain ⟨hnd, hacc, hcov⟩ := hI
  rcases apply_delta_tool_split tcs d tcs' h with
    ⟨pre, acc, post, acc', hsplit, hpre, hb, hm, hres⟩ | ⟨hall, a, hm, hres⟩
  · have hidx : acc'.index = acc.index := by
      rw [merge_tool_call_fragment_index hm, hb]
    subst hsplit hres
    have hpost : ∀ b ∈ post, b.index ≠ acc.index := by
      intro b hbp
      have := hnd
      simp only [List.map_append, List.map_cons, List.nodup_append] at this
      have h2 := this.2.1
      rw [List.nodup_cons] at h2
      intro he
      exact h2.1 (by simpa [he] using List.mem_map_of_mem ChunkToolCallData.index hbp)
    refine ⟨?_, ?_, ?_⟩
    · simpa [List.map_append, List.map_cons, hidx] using hnd
    · intro b hbmem
      rcases List.mem_append.mp hbmem with hbp | hbc
      · -- b in pre: its index differs from d.index, filter unchanged
        have hbne : b.index ≠ d.index := hpre b hbp
        have hfeq : (done ++ [d]).filter (fun fr => decide (fr.index = b.index)) =
            done.filter (fun fr => decide (fr.index = b.index)) := by
          simp [List.filter_append, Ne.symm hbne]
        rw [hfeq]
        exact hacc b (by simp [hbp])
      · rcases List.mem_cons.mp hbc with hbeq | hbp
        · -- b is the replaced accumulator
          subst hbeq
          have hfeq : (done ++ [d]).filter (fun fr => decide (fr.index = b.index)) =
              done.filter (fun fr => decide (fr.index = acc.index)) ++ [d] := by
            simp [List.filter_append, hidx, hb]
          rw [hfeq]
          have hold := hacc acc (by simp)
          constructor
          · simp
          · rw [List.foldlM_append, hold.2]
            simp [bind, Except.bind, hm, pure, Except.pure]
        · -- b in post: its index differs from acc.index = d.index
          have hbne : b.index ≠ d.index := by
            rw [← hb]; exact hpost b hbp
          have hfeq : (done ++ [d]).filter (fun fr => decide (fr.index = b.index)) =
              done.filter (fun fr => decide (fr.index = b.index)) := by
            simp [List.filter_append, Ne.symm hbne]
          rw [hfeq]
          exact hacc b (by simp [hbp])
    · intro fr hfr
      rcases List.mem_append.mp hfr with hfr | hfr
      · obtain ⟨b, hbmem, hbi⟩ := hcov fr hfr
        rcases List.mem_append.mp hbmem with hbp | hbc
        · exact ⟨b, by simp [hbp], hbi⟩
        · rcases List.mem_cons.mp hbc with hbeq | hbp
          · exact ⟨acc', by simp, by rw [hidx, ← hbeq]; exact hbi⟩
          · exact ⟨b, by simp [hbp], hbi⟩
      · have : fr = d := by simpa using hfr
        subst this
        exact ⟨acc', by simp, by rw [hidx, hb]⟩
  · have hidx : a.index = d.index := merge_tool_call_fragment_index hm
    subst hres
    have hdone_empty : done.filter (fun fr => decide (fr.index = d.index)) = [] := by
      rw [List.filter_eq_nil_iff]
      intro fr hfr
      simp only [decide_eq_true_eq]
      intro he
      obtain ⟨b, hbmem, hbi⟩ := hcov fr hfr
      exact hall b hbmem (by rw [hbi, he])
    refine ⟨?_, ?_, ?_⟩
    · rw [List.map_append, List.nodup_append]
      refine ⟨hnd, by simp, ?_⟩
      intro i hi hcon
      simp only [List.map_cons, List.map_nil, List.mem_singleton] at hcon
      obtain ⟨b, hbmem, hbi⟩ := List.mem_map.mp hi
      exact hall b hbmem (by rw [hbi, hcon]; exact hidx)
    · intro b hbmem
      rcases List.mem_append.mp hbmem with hbp | hbeq
      · have hbne : b.index ≠ d.index := hall b hbp
        have hfeq : (done ++ [d]).filter (fun fr => decide (fr.index = b.index)) =
            done.filter (fun fr => decide (fr.index = b.index)) := by
          simp [List.filter_append, Ne.symm hbne]
        rw [hfeq]
        exact hacc b hbp
      · have : b = a := by simpa using hbeq
        subst this
        have hfeq : (done ++ [d]).filter (fun fr => decide (fr.index = b.index)) = [d] := by
          simp [List.filter_append, hidx, hdone_empty]
        rw [hfeq]
        constructor
        · simp
        · simp [List.foldlM_cons, bind, Except.bind, hm, pure, Except.pure]
    · intro fr hfr
      rcases List.mem_append.mp hfr with hfr | hfr
      · obtain ⟨b, hbmem, hbi⟩ := hcov fr hfr
        exact ⟨b, by simp [hbmem], hbi⟩
      · have : fr = d := by simpa using hfr
        subst this
        exact ⟨a, by simp, hidx⟩

theorem toolInv_fold :
    ∀ (frs done : List ChoiceDeltaToolCall) (tcs tcs' : List ChunkToolCallData),
      ToolInv done tcs →
      List.foldlM apply_delta_tool tcs frs = .ok tcs' →
      ToolInv (done ++ frs) tcs' := by
  intro frs
  induction frs with
  | nil =>
    intro done tcs tcs' hI h
    simp only [List.foldlM_nil, pure, Except.pure] at h
    simpa [← Except.ok.inj h] using hI
  | cons fr rest ih =>
    intro done tcs tcs' hI h
    rw [List.foldlM_cons] at h
    cases hstep : apply_delta_tool tcs fr with
    | error e => rw [hstep] at h; simp [bind, Except.bind] at h
    | ok t1 =>
      rw [hstep] at h
      simp only [bind, Except.bind] at h
      have := ih (done ++ [fr]) t1 tcs' (toolInv_step hI hstep) h
      simpa [List.append_assoc] using this

theorem apply_tool_fragments_inv {frs : List ChoiceDeltaToolCall}
    {tcs : List ChunkToolCallData}
    (h : apply_tool_fragments frs = .ok tcs) : ToolInv frs tcs := by
  have hinit : ToolInv [] [] := ⟨by simp, by simp, by simp⟩
  simpa using toolInv_fold frs [] [] tcs hinit h

/-- C8 (counterexample): two fragments for index 0; the first sets
id = "call_a", the second carries id = "call_b"; after the merge the stored id
is "call_b" — a later non-null id overwrites the one already set, so the
claim's "id, type and function name, once set, are never overwritten" is
false (the argument pieces, by contrast, are concatenated). -/
theorem claim_C8_counterexample :
    apply_tool_fragments
        [⟨0, some "call_a", some "function", some ⟨some "f", some "arg1"⟩⟩,
         ⟨0, some "call_b", none, some ⟨none, some "arg2"⟩⟩] =
      .ok [⟨0, some "call_b", some "function", ⟨some "f", some "arg1arg2"⟩⟩] ∧
    (some "call_b" : Option String) ≠ some "call_a" :=
  ⟨rfl, by decide⟩

/-- C8 (amended): for every fragment sequence successfully applied in arrival
order, fragments sharing a position index merge into a single accumulator
(indexes in the result are pairwise distinct and every fragment's index owns
one), the accumulator's argument text is the concatenation of its fragments'
argument pieces in arrival order, and its id, type and function name hold the
latest non-null value supplied by any of its fragments (a later non-null
value overwrites an earlier one; "first non-null wins" only in the absence of
later non-null values). -/
theorem claim_C8 :
    ∀ (frs : List ChoiceDeltaToolCall) (tcs : List ChunkToolCallData),
      apply_tool_fragments frs = .ok tcs →
      (tcs.map ChunkToolCallData.index).Nodup ∧
      (∀ fr ∈ frs, ∃ acc ∈ tcs, acc.index = fr.index) ∧
      (∀ acc ∈ tcs,
        acc.function.arguments =
          joined_args none (frs.filter (fun fr => decide (fr.index = acc.index))) ∧
        acc.id = last_id none (frs.filter (fun fr => decide (fr.index = acc.index))) ∧
        acc.type = last_type none (frs.filter (fun fr => decide (fr.index = acc.index))) ∧
        acc.function.name =
          last_fname none (frs.filter (fun fr => decide (fr.index = acc.index)))) := by
  intro frs tcs h
  obtain ⟨hnd, hacc, hcov⟩ := apply_tool_fragments_inv h
  refine ⟨hnd, hcov, ?_⟩
  intro acc haccmem
  obtain ⟨hne, hfold⟩ := hacc acc haccmem
  have := merged_fold_fields _ _ _ hfold
  simpa [freshToolCall] using this

/-- C8 (witness): the amended statement applied to a concrete two-fragment
split of one call at index 1 ("x" then "yz" merging to "xyz"). -/
theorem claim_C8_witness :
    (([⟨1, some "c1", some "function", ⟨some "g", some "xyz"⟩⟩] :
        List ChunkToolCallData).map ChunkToolCallData.index).Nodup ∧
    (⟨1, some "c1", some "function", ⟨some "g", some "xyz"⟩⟩ :
        ChunkToolCallData).function.arguments =
      joined_args none
        (([⟨1, some "c1", some "function", some ⟨some "g", some "x"⟩⟩,
           ⟨1, none, none, some ⟨none, some "yz"⟩⟩] :
            List ChoiceDeltaToolCall).filter
          (fun fr => decide (fr.index =
            (⟨1, some "c1", some "function", ⟨some "g", some "xyz"⟩⟩ :
              ChunkToolCallData).index))) :=
  ⟨(claim_C8 [⟨1, some "c1", some "function", some ⟨some "g", some "x"⟩⟩,
              ⟨1, none, none, some ⟨none, some "yz"⟩⟩]
      [⟨1, some "c1", some "function", ⟨some "g", some "xyz"⟩⟩] (by rfl)).1,
   ((claim_C8 [⟨1, some "c1", some "function", some ⟨some "g", some "x"⟩⟩,
              ⟨1, none, none, some ⟨none, some "yz"⟩⟩]
      [⟨1, some "c1", some "function", ⟨some "g", some "xyz"⟩⟩] (by rfl)).2.2
      ⟨1, some "c1", some "function", ⟨some "g", some "xyz"⟩⟩ (by simp)).1⟩

/-- completions_proxy.py `_publish_interim_result`: publish the pending-publish
buffer when forced or when the publish interval has elapsed, and only when the
buffer is non-empty; on publish the buffer is cleared and the last-publish
instant set to the current time.  Both `time()` calls of the source occur
within the same guarded block and are modelled by the single instant `now`.
Returns the updated accumulator and the published delta payload, if any. -/
def publish_interim_result (st : ChunkData) (now : ℚ) (force_publish : Bool)
    (publish_frequency : ℚ) : ChunkData × Option String :=
  if force_publish ∨ now - st.last_stream_publish > publish_frequency then
    match st.accumulated_delta with
    | some d =>
      if 0 < d.length then
        ({ st with last_stream_publish := now, accumulated_delta := none }, some d)
      else (st, none)
    | none => (st, none)
  else (st, none)

/-- C10: publishing an interim result touches only the pending-publish buffer
and the last-publish timestamp — when a payload is actually published the
buffer is cleared, the timestamp becomes the current instant, and the
accumulated content, role, tool-call accumulators and tool channel are
unchanged; when the publish is skipped (neither forced nor past the publish
interval, or the buffer is null or empty) the accumulator is returned
entirely unchanged and nothing is sent. -/
theorem claim_C10 (st : ChunkData) (now : ℚ) (force_publish : Bool) (freq : ℚ) :
    (∀ d, (publish_interim_result st now force_publish freq).2 = some d →
        (publish_interim_result st now force_publish freq).1 =
          { st with last_stream_publish := now, accumulated_delta := none }) ∧
    (((force_publish = false ∧ now - st.last_stream_publish ≤ freq) ∨
        st.accumulated_delta = none ∨ st.accumulated_delta = some "") →
      publish_interim_result st now force_publish freq = (st, none)) := by
  constructor
  · intro d hd
    unfold publish_interim_result at hd ⊢
    by_cases hc : (force_publish = true) ∨ now - st.last_stream_publish > freq
    · simp only [if_pos hc] at hd ⊢
      cases hacc : st.accumulated_delta with
      | none => rw [hacc] at hd; simp at hd
      | some s =>
        rw [hacc] at hd
        by_cases hlen : 0 < s.length
        · simp [hlen]
        · simp [hlen] at hd
    · simp only [if_neg hc] at hd; simp at hd
  · rintro (⟨hf, hle⟩ | hnone | hempty)
    · unfold publish_interim_result
      rw [if_neg]
      simp [hf, not_lt.mpr hle]
    · unfold publish_interim_result
      rw [hnone]
      split <;> rfl
    · unfold publish_interim_result
      rw [hempty]
      split <;> simp

/-- C10 (witness): the frame statement applied to a forced publish of the
buffer "hi" at instant 1, and to a skipped publish with an empty buffer. -/
theorem claim_C10_witness :
    (publish_interim_result ⟨some "c", some "assistant", none, some "hi", 0, none⟩
        1 true (2/5)).1 =
      { (⟨some "c", some "assistant", none, some "hi", 0, none⟩ : ChunkData) with
          last_stream_publish := 1, accumulated_delta := none } ∧
    publish_interim_result ⟨some "c", none, none, none, 0, none⟩ 1 true (2/5) =
      (⟨some "c", none, none, none, 0, none⟩, none) :=
  ⟨(claim_C10 ⟨some "c", some "assistant", none, some "hi", 0, none⟩ 1 true (2/5)).1
      "hi" (by rfl),
   (claim_C10 ⟨some "c", none, none, none, 0, none⟩ 1 true (2/5)).2
      (Or.inr (Or.inl rfl))⟩

/-- One delta inside a data-extensions batch message: a role and a content
piece, both optional. -/
structure DSDelta where
  role : Option String
  content : Option String
deriving DecidableEq, Repr

/-- One message of a data-extensions batch: its delta (absent deltas are
skipped by the loop) and its end-of-turn marker, `False` when absent
(`msg.get('end_turn', False)`). -/
structure DSMsg where
  delta : Option DSDelta
  end_turn : Bool
deriving DecidableEq, Repr

/-- chunk_data.py `ChunkData.add_data_source_delta`: processes a batch of
delta messages. Role-less content is appended to `content` and the
pending-publish buffer; role "tool" content accumulates into the raw tool
channel; role "assistant" is logged and ignored; any other role raises
`ValueError`.  The returned pair is (end_turn, content_accumulated); note
that `end_turn` is reassigned from the current message at the end of every
non-skipped iteration, so the last processed message wins. -/
def add_data_source_delta (st : ChunkData) (msgs : List DSMsg) :
    Except PyError (ChunkData × Bool × Bool) :=
  msgs.foldlM (fun acc msg =>
    let st := acc.1
    let end_turn := acc.2.1
    let content_accumulated := acc.2.2
    match msg.delta with
    | none => .ok (st, end_turn, content_accumulated)
    | some delta =>
      match delta.role with
      | none =>
        match delta.content with
        | none => .ok (st, end_turn, content_accumulated)
        | some c =>
          .ok ({ st with content := some (st.content.getD "" ++ c)
                         accumulated_delta := some (st.accumulated_delta.getD "" ++ c) },
               msg.end_turn, true)
      | some "tool" =>
        match delta.content with
        | none => .ok (st, end_turn, content_accumulated)
        | some c =>
          .ok ({ st with tool_content := some (st.tool_content.getD "" ++ c) },
               msg.end_turn, content_accumulated)
      | some "assistant" => .ok (st, msg.end_turn, content_accumulated)
      | some _ => .error (.valueError "Data Source Delta message with unexpected role")
    ) (st, false, false)

/-- The client-visible response under construction (data/chat_response.py
`ChatResponse`, restricted to the fields the modelled paths touch).
Citations are carried as opaque already-serialised tokens; the json decoding
and per-field mapping that produce them from the raw tool channel are
external and enter through the citation oracle below. -/
structure ChatResponse where
  message : Option String
  citations : Option (List String)
deriving DecidableEq, Repr

/-- chunk_data.py `ChunkData.has_tool_citations` over a citation oracle
standing for `json.loads(tool_content).get("citations")`: Python returns
`None` (falsy) when there is no tool channel content. -/
def has_tool_citations (oracle : String → Option (List String))
    (st : ChunkData) : Bool :=
  match st.tool_content with
  | some s => (oracle s).isSome
  | none => false

/-- chunk_data.py `ChunkData.get_tool_citations` over the same oracle. -/
def get_tool_citations (oracle : String → Option (List String))
    (st : ChunkData) : Option (List String) :=
  st.tool_content.bind oracle

/-- Python `b if a is None else a + "\n" + b`: appending a nullable content
string to a nullable response message (`response.message` update); adding a
null content to a non-null message raises `TypeError`. -/
def pyStrJoinNl (a b : Option String) : Except PyError (Option String) :=
  match a with
  | none => .ok b
  | some s =>
    match b with
    | some t => .ok (some (s ++ "\n" ++ t))
    | none => .error .typeError

/-- completions_proxy.py `__process_stream_chunk_from_data_extensions_api`:
apply the batch through `add_data_source_delta`; publish an interim result if
content changed; on end-of-turn, fold the tool-channel citations into the
response, force a final publish, append the accumulated message (with the
serialised citations — iterating a null citations list raises `TypeError`)
to the history and extend the response message; the returned boolean is the
value handed back to the step-loop as "more steps needed". -/
def process_stream_chunk_from_data_extensions_api
    (oracle : String → Option (List String)) (now : ℚ) (st : ChunkData)
    (resp : ChatResponse) (history : List Msg) (msgs : List DSMsg) :
    Except PyError (ChunkData × ChatResponse × List Msg × Bool) := do
  let (st, end_turn, content_updated) ← add_data_source_delta st msgs
  let st := if content_updated then (publish_interim_result st now false (2/5)).1 else st
  if end_turn then
    let resp :=
      if has_tool_citations oracle st then
        match resp.citations with
        | some cs =>
          { resp with citations := some (cs ++ (get_tool_citations oracle st).getD []) }
        | none => { resp with citations := get_tool_citations oracle st }
      else resp
    let st := (publish_interim_result st now true (2/5)).1
    match resp.citations with
    | none => .error .typeError
    | some cs =>
      let history := history ++ [⟨st.role, st.content, some cs⟩]
      let m ← pyStrJoinNl resp.message st.content
      .ok (st, { resp with message := m }, history, true)
  else
    .ok (st, resp, history, false)

/-- C2: evaluation of the data-extensions stream path at the failing input.
A batch whose message carries the end-of-turn marker makes the function
return `true` ("more steps needed"), i.e. the step-loop takes ANOTHER step,
and a batch without the marker returns `false`, terminating the loop — the
opposite of the claim, of the function's own comment ("If it's the end of
the turn, then we're done"), and of its non-streaming twin
`__process_data_source_api_response`, which sets `more_steps = False`
exactly on `end_turn`. -/
theorem claim_C2 :
    (process_stream_chunk_from_data_extensions_api
        (fun s => if s = "CIT" then some ["cite1"] else none) 1
        ⟨none, none, none, none, 0, none⟩ ⟨none, none⟩ []
        [⟨some ⟨some "tool", some "CIT"⟩, true⟩]).map (fun r => r.2.2.2) = .ok true ∧
    (process_stream_chunk_from_data_extensions_api
        (fun s => if s = "CIT" then some ["cite1"] else none) 1
        ⟨none, none, none, none, 0, none⟩ ⟨none, none⟩ []
        [⟨some ⟨some "tool", some "CIT"⟩, false⟩]).map (fun r => r.2.2.2) = .ok false :=
  ⟨rfl, rfl⟩

/-- chat_config.py `ChatFunctionConfig`: caller-visible name, underlying
registered function name, fixed extra arguments (null when the config entry
supplies no "args" key). -/
structure ChatFunctionConfig where
  name : String
  function : String
  args : Option (List (String × String))
deriving DecidableEq, Repr

/-- chat_config.py `ChatConfig`, restricted to the field dispatch reads:
the configured function entries (null when none are configured). -/
structure ChatConfig where
  functions : Option (List ChatFunctionConfig)
deriving DecidableEq, Repr

/-- The three distinct Python values `ChatContext.get_function_config` can
return: a matched entry, `None` (the loop fell through), or the Boolean
`False` (no config, or a config without functions). -/
inductive FCResult where
  | pyNone
  | pyFalse
  | found (c : ChatFunctionConfig)
deriving DecidableEq, Repr

/-- chat_context.py `ChatContext.get_function_config` (lines 114-122):
returns `False` when the context has no config or the config has no
functions; otherwise the first entry whose name matches, or `None`. -/
def get_function_config (config : Option ChatConfig) (function_name : String) :
    FCResult :=
  match config with
  | none => .pyFalse
  | some cfg =>
    match cfg.functions with
    | none => .pyFalse
    | some fns =>
      match fns.find? (fun f => decide (f.name = function_name)) with
      | some f => .found f
      | none => .pyNone

/-- Python keyword-argument dicts, as insertion-ordered association lists
with unique keys; values are opaque (their JSON text). -/
abbrev Kwargs := List (String × String)

/-- Python `dict.update`: values of existing keys are overwritten in place,
new keys are appended in the update's order. -/
def dictUpdate (base extra : Kwargs) : Kwargs :=
  base.map (fun p => (p.1, (extra.lookup p.1).getD p.2)) ++
    extra.filter (fun p => (base.lookup p.1).isNone)

/-- A value returned by a tool implementation, as the wrapper normalisation
distinguishes them: str, dict, list, bool, or anything else.  dict/list/other
values carry their rendering (`json.dumps(..., indent=4)`, `str(...)`), since
serialising external library values is the json/str machinery's job. -/
inductive PyVal where
  | pstr (s : String)
  | pdict (dumps : String)
  | plist (dumps : String)
  | pbool (b : Bool)
  | pother (rep : String)
deriving DecidableEq, Repr

/-- A registered tool implementation: consumes keyword arguments and either
returns a value or raises. -/
abbrev PyFn := Kwargs → Except PyError PyVal

/-- function_registry.py `FunctionRegistry.functions`: a dict from name to
implementation; `name in registry` tests membership and `registry[name]`
raises `KeyError` on a missing key. -/
abbrev FunctionRegistry := List (String × PyFn)

/-- abstract_proxy.py `AbstractProxy._invoke_function_tool` (lines 82-93):
resolve through the per-conversation config first (`if matched_function is
not None`), merging the entry's fixed args over the caller kwargs with
`kwargs.update`; otherwise fall back to the registry by name; otherwise raise
`ValueError`.  Note that the Boolean `False` returned by
`get_function_config` when no config exists also passes the `is not None`
test, upon which `False.args` raises `AttributeError`; and a matched entry
whose fixed args are null makes `kwargs.update(None)` raise `TypeError`. -/
def invoke_function_tool (registry : FunctionRegistry)
    (config : Option ChatConfig) (function_name : String) (kwargs : Kwargs) :
    Except PyError PyVal :=
  match get_function_config config function_name with
  | .found matched =>
    match matched.args with
    | none => .error .typeError
    | some fixed =>
      match registry.lookup matched.function with
      | some fn => fn (dictUpdate kwargs fixed)
      | none => .error .keyError
  | .pyFalse => .error .attributeError
  | .pyNone =>
    match registry.lookup function_name with
    | some fn => fn kwargs
    | none =>
      .error (.valueError ("No function tool registered with the name: " ++ function_name))

/-- The result normalisation shared by both tool-invocation wrappers:
mappings/sequences to their canonical JSON text, booleans to literal
"true"/"false", everything else to its string conversion. -/
def normalize_result (v : PyVal) : String :=
  match v with
  | .pstr s => s
  | .pdict d => d
  | .plist d => d
  | .pbool b => if b then "true" else "false"
  | .pother s => s

/-- completions_proxy.py `__invoke_function_tool` (lines 400-419): the
argument JSON is decoded BEFORE the try block — only a missing (None) value
yields an empty dict, a malformed value raises out of the wrapper — and
everything raised inside the try block (resolution errors and
tool-implementation errors alike) is converted to the sentinel "Failed".
`json.loads` is external and enters as the `parse` oracle; `parse s = none`
models a JSONDecodeError. -/
def completions_invoke_function_tool (registry : FunctionRegistry)
    (config : Option ChatConfig) (parse : String → Option Kwargs)
    (function_name : String) (function_args : Option String) :
    Except PyError String := do
  let args ← match function_args with
    | none => pure ([] : Kwargs)
    | some s =>
      match parse s with
      | some kw => pure kw
      | none => Except.error PyError.jsonDecodeError
  match invoke_function_tool registry config function_name args with
  | .ok v => pure (normalize_result v)
  | .error _ => pure "Failed"

/-- assistant_proxy.py `ToolOutput` (the submitted tool result). -/
structure ToolOutput where
  output : String
  tool_call_id : String
deriving DecidableEq, Repr

/-- assistant_proxy.py `__invoke_function_tool` (lines 226-244): identical
dispatch structure to the completions wrapper (argument decoding outside the
try, blanket conversion to "Failed" inside), wrapping the result into a
`ToolOutput` for submission. -/
def assistant_invoke_function_tool (registry : FunctionRegistry)
    (config : Option ChatConfig) (parse : String → Option Kwargs)
    (function_name : String) (function_args : Option String)
    (call_id : String) : Except PyError ToolOutput := do
  let args ← match function_args with
    | none => pure ([] : Kwargs)
    | some s =>
      match parse s with
      | some kw => pure kw
      | none => Except.error PyError.jsonDecodeError
  match invoke_function_tool registry config function_name args with
  | .ok v => pure (⟨normalize_result v, call_id⟩ : ToolOutput)
  | .error _ => pure (⟨"Failed", call_id⟩ : ToolOutput)

/-- C1: evaluation of `_invoke_function_tool` with a registered function
"echo" (which returns the value of its "q" argument).  First conjunct: with a
config entry "search_docs" mapping to "echo" with fixed args q = "fixed", the
caller-supplied q = "caller" is overridden (fixed args take precedence).
Second conjunct: with a config present whose entries do not match, the
registry fallback fires with the caller arguments.  Third conjunct — the
failing input: with NO per-conversation configuration at all,
`get_function_config` returns the Boolean `False`, which passes the
`is not None` test, and `False.args` raises `AttributeError` before the
registry is consulted — the registry fallback claimed by the spec is never
reached. -/
theorem claim_C1 :
    invoke_function_tool
        [("echo", fun kw => .ok (.pstr ((kw.lookup "q").getD "missing")))]
        (some ⟨some [⟨"search_docs", "echo", some [("q", "fixed")]⟩]⟩)
        "search_docs" [("q", "caller"), ("top", "3")] = .ok (.pstr "fixed") ∧
    invoke_function_tool
        [("echo", fun kw => .ok (.pstr ((kw.lookup "q").getD "missing")))]
        (some ⟨some [⟨"search_docs", "echo", some [("q", "fixed")]⟩]⟩)
        "echo" [("q", "caller")] = .ok (.pstr "caller") ∧
    invoke_function_tool
        [("echo", fun kw => .ok (.pstr ((kw.lookup "q").getD "missing")))]
        none "echo" [("q", "caller")] = .error .attributeError :=
  ⟨rfl, rfl, rfl⟩

/-- C4 (counterexample): with a json oracle on which "###" fails to decode,
the wrapper raises the decode error out of dispatch and the underlying
function is never invoked, whereas supplying no arguments at all invokes it
with an empty argument set and succeeds; dispatch therefore DOES fail on
malformed argument JSON, refuting the claim. -/
theorem claim_C4_counterexample :
    completions_invoke_function_tool
        [("echo", fun kw => .ok (.pstr ((kw.lookup "q").getD "missing")))]
        (some ⟨some []⟩) (fun s => if s = "ok" then some [] else none)
        "echo" (some "###") = .error .jsonDecodeError ∧
    completions_invoke_function_tool
        [("echo", fun kw => .ok (.pstr ((kw.lookup "q").getD "missing")))]
        (some ⟨some []⟩) (fun s => if s = "ok" then some [] else none)
        "echo" none = .ok "missing" ∧
    (Except.error PyError.jsonDecodeError : Except PyError String) ≠ .ok "missing" :=
  ⟨rfl, rfl, fun h => Except.noConfusion h⟩

/-- C4 (amended): only a missing (None) arguments value is passed as an empty
argument set — the wrapper then behaves exactly as the resolved invocation on
empty kwargs; a non-None arguments string that is not valid JSON raises a
decode error that fails dispatch and propagates out of both wrappers
(it is not converted to "Failed", since the decoding happens before the
try block). -/
theorem claim_C4 (registry : FunctionRegistry) (config : Option ChatConfig)
    (parse : String → Option Kwargs) (function_name call_id : String) :
    (completions_invoke_function_tool registry config parse function_name none =
      match invoke_function_tool registry config function_name [] with
      | .ok v => .ok (normalize_result v)
      | .error _ => .ok "Failed") ∧
    (∀ s, parse s = none →
      completions_invoke_function_tool registry config parse function_name (some s) =
        .error .jsonDecodeError ∧
      assistant_invoke_function_tool registry config parse function_name (some s) call_id =
        .error .jsonDecodeError) := by
  constructor
  · simp [completions_invoke_function_tool, bind, Except.bind, pure, Except.pure]
  · intro s hs
    constructor <;>
      simp [completions_invoke_function_tool, assistant_invoke_function_tool, hs,
        bind, Except.bind]

/-- C4 (witness): the amended statement applied to the concrete malformed
argument string "###" under a concrete json oracle. -/
theorem claim_C4_witness :
    completions_invoke_function_tool
        [("echo", fun kw => .ok (.pstr ((kw.lookup "q").getD "missing")))]
        (some ⟨some []⟩) (fun s => if s = "ok" then some [] else none)
        "echo" (some "###") = .error .jsonDecodeError :=
  ((claim_C4 [("echo", fun kw => .ok (.pstr ((kw.lookup "q").getD "missing")))]
      (some ⟨some []⟩) (fun s => if s = "ok" then some [] else none)
      "echo" "call_1").2 "###" (by rfl)).1

/-- C5 (counterexample): the name "ghost" is registered neither in the
per-conversation configuration (present but empty) nor in the registry, and
the arguments decode fine; yet the wrapper returns the sentinel "Failed"
instead of propagating a dispatch error — the `ValueError` raised by the
resolver is swallowed by the wrapper's blanket `except`, refuting the
claim. -/
theorem claim_C5_counterexample :
    completions_invoke_function_tool
        [("echo", fun kw => .ok (.pstr ((kw.lookup "q").getD "missing")))]
        (some ⟨some []⟩) (fun s => if s = "ok" then some [] else none)
        "ghost" (some "ok") = .ok "Failed" ∧
    (Except.ok "Failed" : Except PyError String) ≠
      .error (.valueError "No function tool registered with the name: ghost") :=
  ⟨rfl, fun h => Except.noConfusion h⟩

/-- C5 (amended): when the name matches no per-conversation entry and is not
in the registry, the resolver raises `ValueError`, but the tool-invocation
wrappers catch every exception raised during invocation and convert it to
the sentinel "Failed"; the dispatch error is surfaced to the model as
ordinary tool output, not propagated to the caller. -/
theorem claim_C5 (registry : FunctionRegistry) (config : Option ChatConfig)
    (parse : String → Option Kwargs) (function_name call_id s : String)
    (kw : Kwargs)
    (hcfg : get_function_config config function_name = .pyNone)
    (hreg : registry.lookup function_name = none)
    (hparse : parse s = some kw) :
    completions_invoke_function_tool registry config parse function_name (some s) =
      .ok "Failed" ∧
    assistant_invoke_function_tool registry config parse function_name (some s) call_id =
      .ok ⟨"Failed", call_id⟩ := by
  constructor <;>
    simp [completions_invoke_function_tool, assistant_invoke_function_tool,
      invoke_function_tool, hcfg, hreg, hparse, bind, Except.bind, pure, Except.pure]

/-- C5 (witness): the amended statement at the concrete unknown name "ghost"
with an empty registry-missing lookup and a decodable argument string. -/
theorem claim_C5_witness :
    completions_invoke_function_tool
        [("echo", fun kw => .ok (.pstr ((kw.lookup "q").getD "missing")))]
        (some ⟨some []⟩) (fun s => if s = "ok" then some [] else none)
        "ghost" (some "ok") = .ok "Failed" :=
  (claim_C5 [("echo", fun kw => .ok (.pstr ((kw.lookup "q").getD "missing")))]
      (some ⟨some []⟩) (fun s => if s = "ok" then some [] else none)
      "ghost" "call_1" "ok" [] (by rfl) (by rfl) (by rfl)).1

/-- A choice of the summarisation model call (its role and content; the
remote model guarantees both are strings). -/
structure SChoice where
  role : String
  content : String
deriving DecidableEq, Repr

/-- The summary message appended per model choice by `__summarise_thread`. -/
def summary_message (role content : String) : Msg :=
  ⟨some role,
   some ("Here is a summary of the conversation up to this point: " ++ content),
   none⟩

/-- completions_proxy.py `__summarise_thread` (lines 171-218): pop the last
two messages; append a summary-request user prompt and send the remaining
history to the model (the model is external — its reply enters as the
`choices` oracle and the request itself does not influence the rebuilt
list); clear the list; re-add the system prompt (`_get_system_prompt` never
returns None thanks to its default), one summary message per model choice,
and finally the two popped messages in their original order.  Popping from a
list with fewer than two messages raises IndexError, modelled as `none`. -/
def summarise_thread (msgs : List Msg) (system_prompt : String)
    (choices : List SChoice) : Option (List Msg) :=
  match msgs.getLast? with
  | none => none
  | some most_recent =>
    match msgs.dropLast.getLast? with
    | none => none
    | some second_most_recent =>
      some ([⟨some "system", some system_prompt, none⟩]
        ++ choices.map (fun c => summary_message c.role c.content)
        ++ [second_most_recent, most_recent])

/-- The history phase of completions_proxy.py `send_message` (lines 37-41):
append the user prompt to the thread history, then compact the thread when
the message count has reached the configured `max_history` threshold. -/
def send_message_history_phase (history : List Msg) (message : String)
    (max_history : Nat) (system_prompt : String) (choices : List SChoice) :
    Option (List Msg) :=
  let h := history ++ [⟨some "user", some message, none⟩]
  if max_history ≤ h.length then summarise_thread h system_prompt choices
  else some h

/-- C6: when appending the user prompt brings the session to the history
threshold (with a threshold of at least two and a single summary choice from
the model), compaction leaves the message list as exactly [system prompt,
summary message, the two messages that were most recent before compaction] —
and the second of those two is the triggering user prompt itself, which thus
remains the final message and is never lost. -/
theorem claim_C6 (history : List Msg) (message system_prompt : String)
    (max_history : Nat) (c : SChoice)
    (h2 : 2 ≤ max_history)
    (htrig : max_history ≤ history.length + 1) :
    send_message_history_phase history message max_history system_prompt [c] =
      some [⟨some "system", some system_prompt, none⟩,
            summary_message c.role c.content,
            history.getLastD ⟨none, none, none⟩,
            ⟨some "user", some message, none⟩] := by
  have hne : history ≠ [] := by
    intro hnil
    rw [hnil] at htrig
    simp at htrig
    omega
  unfold send_message_history_phase
  rw [if_pos (by simpa using htrig)]
  unfold summarise_thread
  rw [List.getLast?_concat, List.dropLast_concat]
  cases hl : history.getLast? with
  | none => exact absurd (List.getLast?_eq_none_iff.mp hl) hne
  | some m => simp [List.getLastD_eq_getLast?, hl]

/-- C6 (witness): compaction triggered at threshold 4 on a three-message
history plus the prompt "hi". -/
theorem claim_C6_witness :
    send_message_history_phase
        [⟨some "system", some "SP", none⟩,
         ⟨some "user", some "m1", none⟩,
         ⟨some "assistant", some "m2", none⟩]
        "hi" 4 "SP" [⟨"assistant", "sum"⟩] =
      some [⟨some "system", some "SP", none⟩,
            summary_message "assistant" "sum",
            ⟨some "assistant", some "m2", none⟩,
            ⟨some "user", some "hi", none⟩] :=
  claim_C6
    [⟨some "system", some "SP", none⟩,
     ⟨some "user", some "m1", none⟩,
     ⟨some "assistant", some "m2", none⟩]
    "hi" "SP" 4 ⟨"assistant", "sum"⟩ (by decide) (by decide)

/-- Content of an agent-service message: a text value or an image file
reference (assistant_processor.py content handling). -/
inductive AContent where
  | text (value : String)
  | image (file_id : String)
deriving DecidableEq, Repr

/-- An agent-service message as returned by `list_messages`. -/
structure AMsg where
  assistant_id : String
  created_at : Option Int
  run_id : Option String
  content : List AContent
deriving DecidableEq, Repr

/-- The value occupying the `timeout_secs` positional slot of
`__process_prompt_in_thread`.  The single-agent path passes the timeout
number; the multi-agent fan-out (assistant_processor.py line 97) passes the
parenthesised PAIR `(timeout - (time() - start_time), metadata)` — a Python
tuple — in that slot. -/
inductive TimeoutArg where
  | num (secs : Int)
  | tup (secs : Int)
deriving DecidableEq, Repr

/-- Python `expiry = start_time + timeout_secs`: adding a tuple to a float
raises `TypeError`; this statement sits BEFORE the worker's try block. -/
def pyAddTime (start_time : Int) (t : TimeoutArg) : Except PyError Int :=
  match t with
  | .num s => .ok (start_time + s)
  | .tup _ => .error .typeError

/-- The remote side of one `__process_prompt_in_thread` call (send message →
start run → await completion against the external agent service), summarised
by its observable outcome.  `run_outcome` is the awaited final run status or
the exception the remote sequence raised (`timeoutError` when any of the
deadlines elapses); `listed` is what `list_messages` subsequently returns;
`start_time` is the worker's entry instant; `run_id` the id of the
triggering run. -/
structure WorkerEnv where
  run_outcome : Except PyError String
  listed : List AMsg
  start_time : Int
  run_id : String

/-- The message filter of `__process_prompt_in_thread` (lines 157-161): skip
messages strictly older than the prompt (when they carry a positive
timestamp), then keep only messages without a run id or with the triggering
run's id. -/
def worker_msg_filter (start_time : Int) (run_id : String) (m : AMsg) : Bool :=
  !(match m.created_at with
    | some ts => decide (0 < ts) && decide (ts < start_time)
    | none => false) &&
  decide (m.run_id = none ∨ m.run_id = some run_id)

/-- assistant_processor.py `__process_prompt_in_thread` (lines 140-165):
compute the expiry from the timeout argument (a tuple in this slot raises
TypeError before the try block), run the remote sequence; only TimeoutError
is caught, degrading the worker to `(False, None)`; a completed run returns
`(True, filtered recent messages)`; any other final status is a failure. -/
def process_prompt_in_thread (env : WorkerEnv) (timeout_secs : TimeoutArg) :
    Except PyError (Bool × Option (List AMsg)) := do
  let _expiry ← pyAddTime env.start_time timeout_secs
  match env.run_outcome with
  | .error .timeoutError => pure (false, none)
  | .error e => .error e
  | .ok status =>
    if status = "completed" then
      pure (true, some (env.listed.filter (worker_msg_filter env.start_time env.run_id)))
    else
      pure (false, none)

/-- assistant_processor.py `__build_interpreter_prompt` (lines 117-137):
concatenate the original prompt and, for each non-empty successful worker
result, the resolved assistant name (`name_of`, standing for
`__lookup_assistant(...).name` with its ValueError fallback to the raw id)
and the flattened message text, with a placeholder for image content. -/
def build_interpreter_prompt (name_of : String → Option String)
    (res : List (List AMsg)) (trigger_prompt : String) : String :=
  let base := "The following question has been posed:\n" ++ trigger_prompt ++ "\n\n" ++
    "The  following responses have been provided by the other assistants:\n"
  let mid := res.foldl (fun acc assistant_res =>
    match assistant_res with
    | [] => acc
    | first :: _ =>
      let assistant_name := (name_of first.assistant_id).getD first.assistant_id
      let body := assistant_res.foldl (fun acc2 msg =>
        msg.content.foldl (fun acc3 c =>
          match c with
          | .text v => acc3 ++ v ++ "\n\t"
          | .image fid => acc3 ++ "Image Response at path: " ++ fid ++ "\n\t") acc2) ""
      acc ++ ">> Assistant: " ++ assistant_name ++ ":\n" ++ body ++ "\n\n") base
  mid ++ "Please consider the responses from these assistants in relation to your understanding of the question and provide a suitable response to the question." ++
    "\nSome assistants may not have have the data or context needed to provide a suitable answer, or may not have understood the question. Please consider this in your response."

/-- assistant_processor.py `__orchestrate_prompt_with_assistants` (lines
81-114): the last assistant is the interpreter, the rest are workers; each
worker is submitted with the TUPLE `(timeout - elapsed, metadata)` in the
`timeout_secs` slot (line 97); results are collected with `future.result()`
(which re-raises any worker exception; `as_completed` permutes completion
order, which cannot change whether some result raises); successes are
counted, non-empty successful message lists are merged into the synthesis
prompt, and the interpreter runs with a floor budget of 20 seconds.  Elapsed
wall time between the clock reads is external and taken as zero, so the
remaining budget equals `timeout`. -/
def orchestrate_prompt_with_assistants (env : String → WorkerEnv)
    (name_of : String → Option String) (assistants : List String)
    (prompt : String) (timeout : Int) :
    Except PyError (Option (List AMsg) × Nat × Nat) := do
  match assistants.getLast? with
  | none => .error .indexError
  | some interp =>
    let workers := assistants.dropLast
    let results ← workers.mapM (fun a => process_prompt_in_thread (env a) (.tup timeout))
    let success_count := (results.filter (fun r => r.1)).length
    let failure_count := results.length - success_count
    let res := results.filterMap (fun r =>
      match r.2 with
      | some msgs => if msgs.isEmpty then none else some msgs
      | none => none)
    let _final_prompt := build_interpreter_prompt name_of res prompt
    let r ← process_prompt_in_thread (env interp) (.num (max 20 timeout))
    .ok (r.2, success_count + (if r.1 then 1 else 0),
         failure_count + (if r.1 then 0 else 1))

/-- C3: evaluation at the claim's scenario — agents ["A", "B", "I"], where
the environment completes A's run with one fresh message and raises
TimeoutError for B's run.  First conjunct: the orchestration aborts with
TypeError, because every worker receives the tuple `(timeout - elapsed,
metadata)` in its `timeout_secs` slot and `expiry = start_time +
timeout_secs` raises before the try block; `future.result()` re-raises it,
so there is no merge and no counts, regardless of A's success or B's
timeout.  Second and third conjuncts: called with a numeric timeout, as the
signature `timeout_secs:int` and the single-agent path intend, B's timeout
would degrade to (False, None) and A would return (True, its message) — the
behaviour the claim describes. -/
theorem claim_C3 :
    orchestrate_prompt_with_assistants
        (fun a => if a = "A" then ⟨.ok "completed", [⟨"A", some 20, some "runA", [.text "answer"]⟩], 10, "runA"⟩
          else if a = "B" then ⟨.error .timeoutError, [], 10, "runB"⟩
          else ⟨.ok "completed", [], 10, "runI"⟩)
        (fun _ => none) ["A", "B", "I"] "p" 90 = .error .typeError ∧
    process_prompt_in_thread ⟨.error .timeoutError, [], 10, "runB"⟩ (.num 90) =
      .ok (false, none) ∧
    process_prompt_in_thread
        ⟨.ok "completed", [⟨"A", some 20, some "runA", [.text "answer"]⟩], 10, "runA"⟩
        (.num 90) =
      .ok (true, some [⟨"A", some 20, some "runA", [.text "answer"]⟩]) :=
  ⟨rfl, rfl, rfl⟩

/-- Program counter of one tool-handling episode of
`AssistantsProxy.__handle_run_actions` for a fixed run id: the entry
presence check `if self._are_run_tools_active(run.id): return`, the guard
insertion `self._set_active_tool_run(run.id)`, the tool invocation plus
`submit_tool_outputs` call (one step — the claim counts submissions), the
`finally` removal `self._clear_active_tool_run(run.id)`, and exit. -/
inductive TPC where
  | check
  | insert
  | submit
  | clear
  | done
deriving DecidableEq, Repr

/-- Shared state of two concurrent tool-handling episodes for the same run
id: whether the id is in the `active_tool_runs` dict, each episode's program
counter, whether its check observed the id already present, and whether it
has submitted outputs.  Each Python statement runs atomically under the
interpreter lock, but the presence check and the insertion are two distinct
statements, so another episode can interleave between them. -/
structure GuardState where
  active : Bool
  pc0 : TPC
  pc1 : TPC
  sawBusy0 : Bool
  sawBusy1 : Bool
  submitted0 : Bool
  submitted1 : Bool
deriving DecidableEq, Repr

/-- One atomic statement of the episode selected by `t` (false: episode 0,
true: episode 1), following `__handle_run_actions`: check returns
immediately when the id is present (without touching the guard), otherwise
proceeds to insert; insert adds the id; submit performs the
submit-tool-outputs call; clear removes the id (the `finally` clause). -/
def guardStep (s : GuardState) (t : Bool) : GuardState :=
  if t then
    match s.pc1 with
    | .check =>
      if s.active then { s with pc1 := .done, sawBusy1 := true }
      else { s with pc1 := .insert }
    | .insert => { s with pc1 := .submit, active := true }
    | .submit => { s with pc1 := .clear, submitted1 := true }
    | .clear => { s with pc1 := .done, active := false }
    | .done => s
  else
    match s.pc0 with
    | .check =>
      if s.active then { s with pc0 := .done, sawBusy0 := true }
      else { s with pc0 := .insert }
    | .insert => { s with pc0 := .submit, active := true }
    | .submit => { s with pc0 := .clear, submitted0 := true }
    | .clear => { s with pc0 := .done, active := false }
    | .done => s

/-- Both episodes start at their presence check with the guard set empty. -/
def guardInit : GuardState :=
  ⟨false, .check, .check, false, false, false, false⟩

/-- Execution of an interleaving: one atomic statement per schedule entry. -/
def guardRun (sched : List Bool) : GuardState :=
  sched.foldl guardStep guardInit

/-- The inductive invariant of the guard protocol: an episode that observed
the id present is finished and never submitted; a submitted episode is at or
past its clear statement; and while the id is in the guard set some episode
is between its insertion and its removal. -/
abbrev GuardInv (s : GuardState) : Prop :=
  (s.sawBusy0 = true → s.pc0 = .done ∧ s.submitted0 = false) ∧
  (s.sawBusy1 = true → s.pc1 = .done ∧ s.submitted1 = false) ∧
  (s.submitted0 = true → s.pc0 = .clear ∨ s.pc0 = .done) ∧
  (s.submitted1 = true → s.pc1 = .clear ∨ s.pc1 = .done) ∧
  (s.active = true → (s.pc0 = .submit ∨ s.pc0 = .clear) ∨ (s.pc1 = .submit ∨ s.pc1 = .clear))

set_option maxHeartbeats 4000000 in
theorem guardStep_inv (s : GuardState) (t : Bool) (h : GuardInv s) :
    GuardInv (guardStep s t) := by
  obtain ⟨ac, p0, p1, b0, b1, sb0, sb1⟩ := s
  revert h
  cases t <;> cases ac <;> cases p0 <;> cases p1 <;>
    cases b0 <;> cases b1 <;> cases sb0 <;> cases sb1 <;> decide

theorem guardRun_inv (sched : List Bool) : GuardInv (guardRun sched) := by
  have main : ∀ (l : List Bool) (s : GuardState), GuardInv s →
      GuardInv (l.foldl guardStep s) := by
    intro l
    induction l with
    | nil => intro s hs; simpa using hs
    | cons t rest ih =>
      intro s hs
      exact ih (guardStep s t) (guardStep_inv s t hs)
  exact main sched guardInit (by decide)

/-- C9 (counterexample): the fine-grained alternating schedule — both
presence checks execute before either insertion — makes BOTH episodes pass
the check and BOTH perform a submit-tool-outputs call for the same run id;
"exactly one submitted-outputs call" is violated by this interleaving of the
non-atomic check-then-insert. -/
theorem claim_C9_counterexample :
    (guardRun [false, true, false, true, false, true, false, true]).submitted0 = true ∧
    (guardRun [false, true, false, true, false, true, false, true]).submitted1 = true :=
  ⟨rfl, rfl⟩

/-- C9 (amended): what the guard set does guarantee, over every interleaving
of two tool-handling episodes for the same run id: an episode whose presence
check observes the run id already in the guard set performs no
submit-tool-outputs call, and once both episodes have exited the run id is
no longer in the guard set.  Because the presence check and the insertion
are separate statements, two overlapping checks may both pass, so at most
one episode is guaranteed only per passed check — not per run id. -/
theorem claim_C9 (sched : List Bool) :
    ((guardRun sched).sawBusy0 = true → (guardRun sched).submitted0 = false) ∧
    ((guardRun sched).sawBusy1 = true → (guardRun sched).submitted1 = false) ∧
    ((guardRun sched).pc0 = .done → (guardRun sched).pc1 = .done →
      (guardRun sched).active = false) := by
  obtain ⟨h0, h1, _, _, h5⟩ := guardRun_inv sched
  refine ⟨fun hb => (h0 hb).2, fun hb => (h1 hb).2, fun hd0 hd1 => ?_⟩
  by_contra hac
  rcases h5 (by revert hac; cases (guardRun sched).active <;> simp) with
    (h | h) | (h | h) <;> rw [hd0] at * <;> rw [hd1] at * <;> simp_all

/-- C9 (witness): the amended guarantees applied to two concrete schedules —
one where episode 1's check observes the id inserted by episode 0 (so
episode 1 submits nothing), and one where both episodes run to completion
(so the id ends up removed from the guard set). -/
theorem claim_C9_witness :
    (guardRun [false, false, true]).submitted1 = false ∧
    (guardRun [false, false, false, false, true, true, true, true]).active = false :=
  ⟨(claim_C9 [false, false, true]).2.1 (by rfl),
   (claim_C9 [false, false, false, false, true, true, true, true]).2.2 (by rfl) (by rfl)⟩
